import Mathlib

/-!
Shallow embedding of the CampTrack reporting core (src/services.py and the
schema of src/database.py): the food projection engine
(compute_day_by_day_food_usage), the shortage-alert aggregator
(get_food_shortage_alerts), the leader pay aggregator
(compute_leader_pay_report / get_leader_pay_summary), the effective-stock
helper (effective_daily_stock_for_camp) and the guarded user deletion
(delete_user).

Modelling conventions:
- A SQLite TEXT date column is modelled by `DateStr`: either a canonical
  "YYYY-MM-DD" string carrying its day number (days since 1970-01-01), or an
  unparsable string.  `pd.to_datetime(..., errors="coerce")` is `DateStr.parse?`
  (NaT = `none`); `pd.to_datetime` with the default `errors="raise"` is the
  same partial function with `none` modelling the raised exception at the use
  site.  The rendering `date.strftime("%Y-%m-%d")` of a day number is the
  canonical string of that day, so string equality between a rendered day and
  a stored date column is equality with `DateStr.valid day`: an unparsable
  string never coincides with a rendered day (any string equal to a rendered
  day would parse).
- The `settings` table is restricted to the single key the modelled code
  reads, `daily_pay_rate`; its TEXT value is modelled by `RateStr`: a string
  accepted by Python `float` carrying its rational value, the empty string,
  or a non-empty string on which `float` raises.
- Python exceptions escaping a modelled function are `Option`/`Except`
  failure values (`none` / `.error`).
- Columns no modelled computation reads (camp location/area/type, camper
  names, timestamps, passwords) are omitted from the record types.
-/

/-- A stored date string: canonical ISO form with its day number, or an
unparsable string distinguished by a tag. -/
inductive DateStr where
  | valid (day : Int)
  | invalid (tag : Nat)
deriving DecidableEq

/-- Result of pandas date parsing with errors="coerce": the day number, or
none for NaT.  With errors="raise", none models the raised exception. -/
def DateStr.parse? : DateStr → Option Int
  | .valid d => some d
  | .invalid _ => none

/-- Day number (days since 1970-01-01) of a calendar date, for readable
concrete inputs; standard civil-from-days arithmetic, used for years ≥ 1. -/
def daysFromCivil (y m d : Nat) : Int :=
  let yy : Int := if m ≤ 2 then (y : Int) - 1 else (y : Int)
  let era : Int := yy / 400
  let yoe : Int := yy - era * 400
  let mp : Int := ((m : Int) + 9) % 12
  let doy : Int := (153 * mp + 2) / 5 + (d : Int) - 1
  let doe : Int := yoe * 365 + yoe / 4 - yoe / 100 + doy
  era * 146097 + doe - 719468

/-- A stored `daily_pay_rate` value: a string Python float() accepts with its
rational value, the empty string, or a non-empty string float() rejects. -/
inductive RateStr where
  | num (q : Rat)
  | empty
  | nonnum (tag : Nat)
deriving DecidableEq

/-- Python `s or "0"`: the empty string is falsy and is replaced by "0". -/
def RateStr.pyOr0 : RateStr → RateStr
  | .empty => .num 0
  | r => r

/-- Python `float(s)`: the parsed value, or none when float() raises. -/
def RateStr.pyFloat? : RateStr → Option Rat
  | .num q => some q
  | .empty => none
  | .nonnum _ => none

/-- Row of the users table (id INTEGER PRIMARY KEY). -/
structure User where
  id : Nat
  username : String
  role : String
  enabled : Bool
deriving DecidableEq

/-- Row of the camps table. -/
structure Camp where
  id : Nat
  name : String
  start_date : DateStr
  end_date : DateStr
  daily_food_units_planned : Int
  default_food_units_per_camper_per_day : Int
deriving DecidableEq

/-- Row of the camp_campers enrollment table. -/
structure CampCamper where
  camp_id : Nat
  camper_id : Nat
  food_units_per_day : Int
deriving DecidableEq

/-- Row of the activities table. -/
structure Activity where
  id : Nat
  camp_id : Nat
  name : String
  date : DateStr
deriving DecidableEq

/-- Row of the camper_activity join table. -/
structure CamperActivity where
  activity_id : Nat
  camper_id : Nat
deriving DecidableEq

/-- Row of the stock_topups table (created_at and id omitted: only the sum of
deltas per camp is read). -/
structure StockTopup where
  camp_id : Nat
  delta_daily_units : Int
deriving DecidableEq

/-- Row of the leader_assignments table. -/
structure LeaderAssignment where
  leader_user_id : Nat
  camp_id : Nat
deriving DecidableEq

/-- Row of the daily_reports table (notes omitted); referenced here only
through its ON DELETE RESTRICT foreign key on leader_user_id. -/
structure DailyReport where
  camp_id : Nat
  leader_user_id : Nat
  date : DateStr
deriving DecidableEq

/-- The queryable store: the tables the modelled computations touch, plus the
single settings key they read (none = row absent). -/
structure DB where
  users : List User
  camps : List Camp
  camp_campers : List CampCamper
  activities : List Activity
  camper_activity : List CamperActivity
  stock_topups : List StockTopup
  leader_assignments : List LeaderAssignment
  daily_reports : List DailyReport
  daily_pay_rate : Option RateStr
deriving DecidableEq

instance {ε α : Type} [DecidableEq ε] [DecidableEq α] :
    DecidableEq (Except ε α) := fun a b =>
  match a, b with
  | .ok x, .ok y =>
    if h : x = y then isTrue (by rw [h])
    else isFalse (by intro hc; cases hc; exact h rfl)
  | .error x, .error y =>
    if h : x = y then isTrue (by rw [h])
    else isFalse (by intro hc; cases hc; exact h rfl)
  | .ok _, .error _ => isFalse (by intro hc; cases hc)
  | .error _, .ok _ => isFalse (by intro hc; cases hc)

/-- SELECT * FROM camps WHERE id = ? (fetchone). -/
def get_camp (db : DB) (camp_id : Nat) : Option Camp :=
  db.camps.find? (fun c => c.id == camp_id)

/-- Sum of delta_daily_units over list_stock_topups(camp_id); the SQL
COALESCE(SUM(delta_daily_units),0) of effective_daily_stock_for_camp computes
the same total. -/
def topupSum (db : DB) (camp_id : Nat) : Int :=
  ((db.stock_topups.filter (fun t => t.camp_id == camp_id)).map
    (fun t => t.delta_daily_units)).sum

/-- effective_daily_stock_for_camp: base + sum(top-ups), 0 for a missing
camp.  The source's `int(base_row[...]) or 0` is the identity on integers. -/
def effective_daily_stock_for_camp (db : DB) (camp_id : Nat) : Int :=
  match get_camp db camp_id with
  | none => 0
  | some camp => camp.daily_food_units_planned + topupSum db camp_id

/-- pd.date_range(start, end, freq="D"): the inclusive ascending run of day
numbers, empty when end < start. -/
def dateRange (s e : Int) : List Int :=
  (List.range (e - s + 1).toNat).map (fun (i : Nat) => s + (i : Int))

/-- One output record of the projection; `date` is the day number whose
canonical rendering the source stores as date_str. -/
structure DayRecord where
  date : Int
  required : Int
  planned : Int
  gap : Int
deriving DecidableEq

/-- The activity participation query of compute_day_by_day_food_usage:
SELECT a.date, ca.camper_id, cc.food_units_per_day
FROM activities a
JOIN camper_activity ca ON ca.activity_id = a.id
JOIN camp_campers cc ON cc.camper_id = ca.camper_id AND cc.camp_id = a.camp_id
WHERE a.camp_id = ?. -/
def activityJoin (db : DB) (camp_id : Nat) : List (DateStr × Nat × Int) :=
  (db.activities.filter (fun a => a.camp_id == camp_id)).flatMap (fun a =>
    (db.camper_activity.filter (fun ca => ca.activity_id == a.id)).flatMap
      (fun ca =>
        (db.camp_campers.filter (fun cc =>
            cc.camper_id == ca.camper_id && cc.camp_id == a.camp_id)).map
          (fun cc => (a.date, ca.camper_id, cc.food_units_per_day))))

/-- The per-date slice activity_df[activity_df["date"] == date_str]. -/
def dayActivityRows (db : DB) (camp_id : Nat) (d : Int) :
    List (DateStr × Nat × Int) :=
  (activityJoin db camp_id).filter (fun r => r.1 == DateStr.valid d)

/-- The required units of one projection day: the join-row sum when the day's
slice is non-empty, otherwise the whole-camp enrollment sum. -/
def requiredFor (db : DB) (camp_id : Nat) (d : Int) : Int :=
  if !(dayActivityRows db camp_id d).isEmpty then
    ((dayActivityRows db camp_id d).map (fun r => r.2.2)).sum
  else
    ((db.camp_campers.filter (fun cc => cc.camp_id == camp_id)).map
      (fun cc => cc.food_units_per_day)).sum

/-- compute_day_by_day_food_usage: none models the exception pd.to_datetime /
pd.date_range raise when a camp date does not parse; a missing camp yields
some [].  planned_daily is the camp's base plus the cached top-up sum. -/
def compute_day_by_day_food_usage (db : DB) (camp_id : Nat) :
    Option (List DayRecord) :=
  match get_camp db camp_id with
  | none => some []
  | some camp =>
    match camp.start_date.parse?, camp.end_date.parse? with
    | some s, some e =>
      let planned_daily := camp.daily_food_units_planned + topupSum db camp_id
      some ((dateRange s e).map (fun d =>
        { date := d
          required := requiredFor db camp_id d
          planned := planned_daily
          gap := planned_daily - requiredFor db camp_id d }))
    | _, _ => none

/-- One entry of the shortage-alert listing. -/
structure Alert where
  camp_id : Nat
  camp_name : String
  shortages : List DayRecord
deriving DecidableEq

/-- The loop body of get_food_shortage_alerts over a camp listing; an
exception from the projection aborts the whole sweep (none). -/
def shortageSweep (db : DB) : List Camp → Option (List Alert)
  | [] => some []
  | camp :: rest =>
    match compute_day_by_day_food_usage db camp.id with
    | none => none
    | some per_day =>
      match shortageSweep db rest with
      | none => none
      | some alerts =>
        let shortages := per_day.filter (fun day => day.gap < 0)
        if shortages.isEmpty then some alerts
        else
          some ({ camp_id := camp.id, camp_name := camp.name,
                  shortages := shortages } :: alerts)

/-- get_food_shortage_alerts: sweep every camp of list_camps().  The source
lists camps ordered by (start_date, name); the stored order is used here, the
membership and per-entry contents proved below are order-independent. -/
def get_food_shortage_alerts (db : DB) : Option (List Alert) :=
  shortageSweep db db.camps

/-- get_setting("daily_pay_rate", "0"): the stored value, defaulting to the
string "0" (float value 0) when the row is absent. -/
def get_daily_pay_rate (db : DB) : RateStr :=
  db.daily_pay_rate.getD (RateStr.num 0)

/-- The rate computation of compute_leader_pay_report:
float(get_daily_pay_rate() or "0"); none models the ValueError float raises
on a non-numeric, non-empty stored value. -/
def dailyRate? (db : DB) : Option Rat :=
  (get_daily_pay_rate db).pyOr0.pyFloat?

/-- Row of the assignment query of compute_leader_pay_report:
SELECT la.leader_user_id, la.camp_id, c.start_date, c.end_date
FROM leader_assignments la JOIN camps c ON c.id = la.camp_id. -/
structure AssignRow where
  leader_user_id : Nat
  camp_id : Nat
  start_date : DateStr
  end_date : DateStr
deriving DecidableEq

/-- The assignments dataframe: the leader_assignments x camps inner join. -/
def assignmentsJoin (db : DB) : List AssignRow :=
  db.leader_assignments.flatMap (fun la =>
    (db.camps.filter (fun c => c.id == la.camp_id)).map (fun c =>
      { leader_user_id := la.leader_user_id
        camp_id := la.camp_id
        start_date := c.start_date
        end_date := c.end_date }))

/-- An assignment row surviving dropna, with its computed day count. -/
structure ParsedRow where
  leader_user_id : Nat
  camp_id : Nat
  days : Int
deriving DecidableEq

/-- Date coercion plus dropna plus the day computation of the source:
days = ((end - start).dt.days + 1).abs().clip(lower=0); rows where either
date coerces to NaT are dropped. -/
def parseAssignRow (r : AssignRow) : Option ParsedRow :=
  match r.start_date.parse?, r.end_date.parse? with
  | some s, some e =>
    some { leader_user_id := r.leader_user_id
           camp_id := r.camp_id
           days := max 0 ((e - s + 1).natAbs : Int) }
  | _, _ => none

/-- The dataframe after dropna, carrying the "days" column. -/
def parsedRows (db : DB) : List ParsedRow :=
  (assignmentsJoin db).filterMap parseAssignRow

/-- One per_camp entry of a pay summary. -/
structure PayLine where
  camp_id : Nat
  camp_name : String
  days : Int
  pay : Rat
deriving DecidableEq

/-- One result entry of compute_leader_pay_report. -/
structure PaySummary where
  leader_user_id : Nat
  total_pay : Rat
  per_camp : List PayLine
deriving DecidableEq

/-- The per-assignment pay line: camp_record = df[df["id"] == camp_id].iloc[0]
names the camp; the inner join guarantees such a camp exists, so the empty
default of the name lookup is never taken.  pay = daily_rate * max(0, days). -/
def payLine (db : DB) (rate : Rat) (r : ParsedRow) : PayLine :=
  { camp_id := r.camp_id
    camp_name := ((get_camp db r.camp_id).map (fun c => c.name)).getD ""
    days := max 0 r.days
    pay := rate * ((max 0 r.days : Int) : Rat) }

/-- The pandas groupby("leader_user_id") keys: distinct leader ids in
ascending order. -/
def groupKeys (rows : List ParsedRow) : List Nat :=
  ((rows.map (fun r => r.leader_user_id)).dedup).insertionSort (· ≤ ·)

/-- One group's summary: the group keeps the dataframe order, total is the
accumulated sum of the group's pay values. -/
def paySummaryFor (db : DB) (rate : Rat) (leader_id : Nat) : PaySummary :=
  let group := (parsedRows db).filter (fun r => r.leader_user_id == leader_id)
  { leader_user_id := leader_id
    total_pay := ((group.map (payLine db rate)).map (fun l => l.pay)).sum
    per_camp := group.map (payLine db rate) }

/-- compute_leader_pay_report: empty camp summary or empty assignment join
return [] before the rate is parsed; a non-numeric non-empty stored rate then
raises ValueError (.error); otherwise one summary per groupby key. -/
def compute_leader_pay_report (db : DB) : Except String (List PaySummary) :=
  if db.camps.isEmpty then .ok []
  else if (assignmentsJoin db).isEmpty then .ok []
  else
    match dailyRate? db with
    | none => .error "ValueError: could not convert string to float"
    | some rate =>
      .ok ((groupKeys (parsedRows db)).map (paySummaryFor db rate))

/-- get_leader_pay_summary: first matching summary of the bulk report, else
the zero-total default; an exception from the report propagates. -/
def get_leader_pay_summary (db : DB) (leader_user_id : Nat) :
    Except String PaySummary :=
  match compute_leader_pay_report db with
  | .error e => .error e
  | .ok summaries =>
    .ok ((summaries.find? (fun s => s.leader_user_id == leader_user_id)).getD
      { leader_user_id := leader_user_id, total_pay := 0, per_camp := [] })

/-- COUNT(*) FROM users WHERE role = 'leader'. -/
def leaderCount (db : DB) : Nat :=
  db.users.countP (fun u => u.role == "leader")

/-- delete_user: a missing id returns False; deleting the last remaining
leader account is blocked; a DELETE hitting an ON DELETE RESTRICT foreign key
(leader_assignments.leader_user_id, daily_reports.leader_user_id) raises
IntegrityError, caught as False with the state unchanged; otherwise the row
is deleted. -/
def delete_user (db : DB) (user_id : Nat) : Bool × DB :=
  match db.users.find? (fun u => u.id == user_id) with
  | none => (false, db)
  | some u =>
    if u.role = "leader" ∧ leaderCount db ≤ 1 then
      (false, db)
    else if (db.leader_assignments.any (fun la => la.leader_user_id == user_id))
        ∨ (db.daily_reports.any (fun r => r.leader_user_id == user_id)) then
      (false, db)
    else
      (true, { db with users := db.users.filter (fun v => ¬ v.id == user_id) })

/-- A sequence of delete_user calls, threading the store. -/
def applyDeletes (db : DB) (ids : List Nat) : DB :=
  ids.foldl (fun d i => (delete_user d i).2) db

/-! ## General lemmas about the projection -/

/-- When the camp resolves and both its dates parse, the projection is the
record list over the inclusive date range. -/
theorem compute_eq_map (db : DB) (camp_id : Nat) (camp : Camp) (s e : Int)
    (hc : get_camp db camp_id = some camp)
    (hs : camp.start_date = .valid s) (he : camp.end_date = .valid e) :
    compute_day_by_day_food_usage db camp_id =
      some ((dateRange s e).map (fun d =>
        { date := d
          required := requiredFor db camp_id d
          planned := camp.daily_food_units_planned + topupSum db camp_id
          gap := camp.daily_food_units_planned + topupSum db camp_id -
            requiredFor db camp_id d })) := by
  have hps : camp.start_date.parse? = some s := by rw [hs]; rfl
  have hpe : camp.end_date.parse? = some e := by rw [he]; rfl
  unfold compute_day_by_day_food_usage
  rw [hc]
  dsimp only
  rw [hps, hpe]

/-- Every activity-join row of a camp carries the date of one of the camp's
activities. -/
theorem date_of_mem_activityJoin (db : DB) (camp_id : Nat)
    (r : DateStr × Nat × Int) (hr : r ∈ activityJoin db camp_id) :
    ∃ a ∈ db.activities, a.camp_id = camp_id ∧ r.1 = a.date := by
  unfold activityJoin at hr
  simp only [List.mem_flatMap, List.mem_filter, List.mem_map] at hr
  obtain ⟨a, ⟨ha, hcampa⟩, ca, ⟨_, _⟩, cc, ⟨_, _⟩, heq⟩ := hr
  refine ⟨a, ha, by simpa using hcampa, ?_⟩
  rw [← heq]

/-- A day on which the camp schedules no activity has no activity-join rows. -/
theorem dayActivityRows_eq_nil_of_no_activity (db : DB) (camp_id : Nat)
    (d : Int)
    (h : ∀ a ∈ db.activities, a.camp_id = camp_id → a.date ≠ DateStr.valid d) :
    dayActivityRows db camp_id d = [] := by
  unfold dayActivityRows
  rw [List.filter_eq_nil_iff]
  intro r hr
  obtain ⟨a, ha, hcamp, hdate⟩ := date_of_mem_activityJoin db camp_id r hr
  have := h a ha hcamp
  simp [hdate]
  intro hcontra
  exact this (by rw [← hcontra])

/-- When the camp resolves but either date fails to parse, the projection
raises (pd.to_datetime with errors="raise" / pd.date_range on NaT). -/
theorem compute_eq_none (db : DB) (camp_id : Nat) (camp : Camp)
    (hc : get_camp db camp_id = some camp)
    (hbad : camp.start_date.parse? = none ∨ camp.end_date.parse? = none) :
    compute_day_by_day_food_usage db camp_id = none := by
  unfold compute_day_by_day_food_usage
  rw [hc]
  dsimp only
  rcases hbad with h | h
  · rw [h]
  · rw [h]
    rcases camp.start_date.parse? with _ | v <;> rfl

/-! ## Claim theorems: food projection -/

/-- C8: for every camp identifier that does not resolve to an existing camp
record, the food projection returns an empty sequence and raises no
exception. -/
theorem projection_missing_camp_empty (db : DB) (camp_id : Nat)
    (h : get_camp db camp_id = none) :
    compute_day_by_day_food_usage db camp_id = some [] := by
  unfold compute_day_by_day_food_usage
  rw [h]

/-- C7: for every existing camp, the effective planned daily units equal the
base daily planned units plus the algebraic sum of all recorded top-up
deltas, and this single value is the planned figure of every projection
day. -/
theorem effective_planned_units_invariant (db : DB) (camp_id : Nat)
    (camp : Camp) (hc : get_camp db camp_id = some camp) :
    effective_daily_stock_for_camp db camp_id =
      camp.daily_food_units_planned +
        ((db.stock_topups.filter (fun t => t.camp_id == camp_id)).map
          (fun t => t.delta_daily_units)).sum ∧
    ∀ recs, compute_day_by_day_food_usage db camp_id = some recs →
      ∀ r ∈ recs, r.planned = effective_daily_stock_for_camp db camp_id := by
  have heff : effective_daily_stock_for_camp db camp_id =
      camp.daily_food_units_planned + topupSum db camp_id := by
    unfold effective_daily_stock_for_camp
    rw [hc]
  refine ⟨heff, ?_⟩
  intro recs hrecs r hr
  rcases hsd : camp.start_date with s | t
  · rcases hed : camp.end_date with e | t
    · rw [compute_eq_map db camp_id camp s e hc hsd hed] at hrecs
      obtain rfl := Option.some_injective _ hrecs
      rw [List.mem_map] at hr
      obtain ⟨d, _, rfl⟩ := hr
      rw [heff]
    · exfalso
      rw [compute_eq_none db camp_id camp hc
        (Or.inr (by rw [hed]; rfl))] at hrecs
      exact Option.noConfusion hrecs
  · exfalso
    rw [compute_eq_none db camp_id camp hc
      (Or.inl (by rw [hsd]; rfl))] at hrecs
    exact Option.noConfusion hrecs

/-- C4: for every existing camp whose dates parse with end ≥ start, the
projection has one record per calendar day of the inclusive range in
ascending order, and each day without a scheduled activity requires the sum
of the per-day allocations of every enrolled camper. -/
theorem projection_day_grid_baseline (db : DB) (camp_id : Nat) (camp : Camp)
    (s e : Int) (hc : get_camp db camp_id = some camp)
    (hs : camp.start_date = .valid s) (he : camp.end_date = .valid e)
    (hse : s ≤ e) :
    ∃ recs, compute_day_by_day_food_usage db camp_id = some recs ∧
      recs.map (fun r => r.date) =
        (List.range ((e - s).toNat + 1)).map (fun (i : Nat) => s + (i : Int)) ∧
      ∀ r ∈ recs,
        (∀ a ∈ db.activities, a.camp_id = camp_id →
          a.date ≠ DateStr.valid r.date) →
        r.required =
          ((db.camp_campers.filter (fun cc => cc.camp_id == camp_id)).map
            (fun cc => cc.food_units_per_day)).sum := by
  refine ⟨_, compute_eq_map db camp_id camp s e hc hs he, ?_, ?_⟩
  · rw [List.map_map]
    unfold dateRange
    have h1 : (e - s + 1).toNat = (e - s).toNat + 1 := by omega
    rw [h1, List.map_map]
    rfl
  · intro r hr hnoact
    rw [List.mem_map] at hr
    obtain ⟨d, _, rfl⟩ := hr
    show requiredFor db camp_id d = _
    unfold requiredFor
    rw [dayActivityRows_eq_nil_of_no_activity db camp_id d hnoact]
    rfl

/-- C5 (amended): on each projected day the required units are the sum of
food_units_per_day over the day's (camper, activity) join rows whenever at
least one such row exists; a day whose scheduled activities have no enrolled
participants assigned falls back to the whole-camp enrollment sum. -/
theorem projection_join_row_required (db : DB) (camp_id : Nat) (camp : Camp)
    (s e : Int) (hc : get_camp db camp_id = some camp)
    (hs : camp.start_date = .valid s) (he : camp.end_date = .valid e) :
    ∃ recs, compute_day_by_day_food_usage db camp_id = some recs ∧
      ∀ r ∈ recs,
        (dayActivityRows db camp_id r.date ≠ [] →
          r.required =
            ((dayActivityRows db camp_id r.date).map (fun x => x.2.2)).sum) ∧
        (dayActivityRows db camp_id r.date = [] →
          r.required =
            ((db.camp_campers.filter (fun cc => cc.camp_id == camp_id)).map
              (fun cc => cc.food_units_per_day)).sum) := by
  refine ⟨_, compute_eq_map db camp_id camp s e hc hs he, ?_⟩
  intro r hr
  rw [List.mem_map] at hr
  obtain ⟨d, _, rfl⟩ := hr
  constructor
  · intro hne
    show requiredFor db camp_id d = _
    unfold requiredFor
    have : (dayActivityRows db camp_id d).isEmpty = false := by
      simpa [List.isEmpty_iff] using hne
    rw [this]
    rfl
  · intro hnil
    show requiredFor db camp_id d = _
    unfold requiredFor
    rw [hnil]
    rfl

/-! ## Claim theorems: shortage alerts -/

/-- Structure of a successful shortage sweep over a camp listing: every entry
comes from a listed camp and keeps exactly its negative-gap days, and every
listed camp with a negative-gap day contributes an entry. -/
theorem shortageSweep_spec (db : DB) (cs : List Camp) (alerts : List Alert)
    (h : shortageSweep db cs = some alerts) :
    (∀ e ∈ alerts, ∃ c ∈ cs, e.camp_id = c.id ∧
      ∃ recs, compute_day_by_day_food_usage db c.id = some recs ∧
        e.shortages = recs.filter (fun r => r.gap < 0) ∧
        e.shortages ≠ []) ∧
    (∀ c ∈ cs, ∃ recs, compute_day_by_day_food_usage db c.id = some recs ∧
      ((recs.filter (fun r => r.gap < 0)) ≠ [] →
        ∃ e ∈ alerts, e.camp_id = c.id)) := by
  induction cs generalizing alerts with
  | nil =>
    unfold shortageSweep at h
    obtain rfl := Option.some_injective _ h
    simp
  | cons c rest ih =>
    unfold shortageSweep at h
    rcases hcd : compute_day_by_day_food_usage db c.id with _ | per_day <;>
      rw [hcd] at h
    · exact Option.noConfusion h
    rcases hrest : shortageSweep db rest with _ | as <;> rw [hrest] at h
    · exact Option.noConfusion h
    obtain ⟨ih1, ih2⟩ := ih as hrest
    dsimp only at h
    by_cases hemp : (per_day.filter (fun r => r.gap < 0)).isEmpty
    · rw [if_pos hemp] at h
      obtain rfl := Option.some_injective _ h
      constructor
      · intro e he
        obtain ⟨c', hc', rest'⟩ := ih1 e he
        exact ⟨c', List.mem_cons_of_mem c hc', rest'⟩
      · intro c' hc'
        rcases List.mem_cons.mp hc' with rfl | hmem
        · refine ⟨per_day, hcd, ?_⟩
          intro hne
          exact absurd (List.isEmpty_iff.mp hemp) hne
        · exact ih2 c' hmem
    · rw [if_neg hemp] at h
      obtain rfl := Option.some_injective _ h
      have hne : per_day.filter (fun r => r.gap < 0) ≠ [] := by
        intro hnil
        exact hemp (by rw [hnil]; rfl)
      constructor
      · intro e he
        rcases List.mem_cons.mp he with rfl | hmem
        · exact ⟨c, List.mem_cons_self c rest, rfl, per_day, hcd, rfl, hne⟩
        · obtain ⟨c', hc', rest'⟩ := ih1 e hmem
          exact ⟨c', List.mem_cons_of_mem c hc', rest'⟩
      · intro c' hc'
        rcases List.mem_cons.mp hc' with rfl | hmem
        · refine ⟨per_day, hcd, fun _ => ?_⟩
          exact ⟨_, List.mem_cons_self _ _, rfl⟩
        · obtain ⟨recs, hrecs, himp⟩ := ih2 c' hmem
          refine ⟨recs, hrecs, fun hx => ?_⟩
          obtain ⟨e, he, heid⟩ := himp hx
          exact ⟨e, List.mem_cons_of_mem _ he, heid⟩

/-- C6: a camp appears in the shortage-alert listing iff at least one of its
projected days has gap < 0, and each listed camp's shortages are exactly its
negative-gap days. -/
theorem shortage_alert_membership (db : DB) (alerts : List Alert)
    (h : get_food_shortage_alerts db = some alerts) :
    (∀ c ∈ db.camps,
      ((∃ e ∈ alerts, e.camp_id = c.id) ↔
        (∃ recs, compute_day_by_day_food_usage db c.id = some recs ∧
          ∃ r ∈ recs, r.gap < 0))) ∧
    (∀ e ∈ alerts,
      ∃ recs, compute_day_by_day_food_usage db e.camp_id = some recs ∧
        e.shortages = recs.filter (fun r => r.gap < 0) ∧ e.shortages ≠ []) := by
  obtain ⟨hent, hcamp⟩ := shortageSweep_spec db db.camps alerts h
  constructor
  · intro c hcmem
    constructor
    · rintro ⟨e, he, heid⟩
      obtain ⟨c', _, heid', recs, hrecs, hsh, hne⟩ := hent e he
      refine ⟨recs, ?_, ?_⟩
      · rw [show c.id = c'.id from by rw [← heid, heid']]
        exact hrecs
      · have hfne : recs.filter (fun r => r.gap < 0) ≠ [] := by
          rw [← hsh]; exact hne
        obtain ⟨r, hrmem⟩ := List.exists_mem_of_ne_nil _ hfne
        have hrf := List.mem_filter.mp hrmem
        exact ⟨r, hrf.1, by simpa using hrf.2⟩
    · rintro ⟨recs, hrecs, r, hrmem, hrgap⟩
      obtain ⟨recs', hrecs', himp⟩ := hcamp c hcmem
      have hrr : recs' = recs := by
        rw [hrecs] at hrecs'
        exact (Option.some_injective _ hrecs').symm
      apply himp
      rw [hrr]
      exact List.ne_nil_of_mem
        (List.mem_filter.mpr ⟨hrmem, by simpa using hrgap⟩)
  · intro e he
    obtain ⟨c', _, heid', recs, hrecs, hsh, hne⟩ := hent e he
    refine ⟨recs, ?_, hsh, hne⟩
    rw [heid']
    exact hrecs

/-! ## Claim theorems: leader pay -/

/-- A successful pay report is either the early empty result (in which case
no assignment row survives parsing either) or the grouped summaries under a
successfully parsed rate. -/
theorem report_shape (db : DB) (rs : List PaySummary)
    (h : compute_leader_pay_report db = .ok rs) :
    (rs = [] ∧ parsedRows db = []) ∨
    (∃ rate, dailyRate? db = some rate ∧
      rs = (groupKeys (parsedRows db)).map (paySummaryFor db rate)) := by
  unfold compute_leader_pay_report at h
  by_cases hcamps : db.camps.isEmpty
  · rw [if_pos hcamps] at h
    injection h with h2
    subst h2
    left
    refine ⟨rfl, ?_⟩
    have hnil : db.camps = [] := List.isEmpty_iff.mp hcamps
    simp [parsedRows, assignmentsJoin, hnil]
  · rw [if_neg hcamps] at h
    by_cases hjoin : (assignmentsJoin db).isEmpty
    · rw [if_pos hjoin] at h
      injection h with h2
      subst h2
      left
      refine ⟨rfl, ?_⟩
      have hnil : assignmentsJoin db = [] := List.isEmpty_iff.mp hjoin
      simp [parsedRows, hnil]
    · rw [if_neg hjoin] at h
      rcases hrate : dailyRate? db with _ | rate <;> rw [hrate] at h
      · exact Except.noConfusion h
      · injection h with h2
        subst h2
        exact Or.inr ⟨rate, rfl, rfl⟩

/-- C2 (amended): whenever the stored daily_pay_rate is absent, empty, or a
numeric string, the pay report does not raise and every pay line is the rate
times the day count; an absent or empty value yields rate 0.  (A non-numeric,
non-empty value instead raises ValueError once camps and assignments exist:
see the counterexample.) -/
theorem leader_pay_rate_default_policy (db : DB) (q : Rat)
    (h : dailyRate? db = some q) :
    (∃ rs, compute_leader_pay_report db = .ok rs ∧
      ∀ s ∈ rs, ∀ l ∈ s.per_camp, l.pay = q * (l.days : Rat)) ∧
    ((db.daily_pay_rate = none ∨ db.daily_pay_rate = some .empty) →
      q = 0) := by
  constructor
  · by_cases hcamps : db.camps.isEmpty
    · exact ⟨[], by unfold compute_leader_pay_report; rw [if_pos hcamps],
        by simp⟩
    · by_cases hjoin : (assignmentsJoin db).isEmpty
      · exact ⟨[], by
          unfold compute_leader_pay_report
          rw [if_neg hcamps, if_pos hjoin], by simp⟩
      · refine ⟨(groupKeys (parsedRows db)).map (paySummaryFor db q), ?_, ?_⟩
        · unfold compute_leader_pay_report
          rw [if_neg hcamps, if_neg hjoin, h]
        · intro s hs l hl
          rw [List.mem_map] at hs
          obtain ⟨lid, _, rfl⟩ := hs
          simp only [paySummaryFor] at hl
          rw [List.mem_map] at hl
          obtain ⟨r, _, rfl⟩ := hl
          simp [payLine]
  · intro hd
    unfold dailyRate? get_daily_pay_rate at h
    rcases hd with hd | hd <;>
      rw [hd] at h <;>
      simp [RateStr.pyOr0, RateStr.pyFloat?] at h <;>
      exact h.symm

/-- Membership in the groupby keys is membership in the leader column. -/
theorem mem_groupKeys_iff (rows : List ParsedRow) (lid : Nat) :
    lid ∈ groupKeys rows ↔ lid ∈ rows.map (fun r => r.leader_user_id) := by
  unfold groupKeys
  rw [(List.perm_insertionSort _ _).mem_iff, List.mem_dedup]

/-- The groupby keys are distinct. -/
theorem groupKeys_nodup (rows : List ParsedRow) : (groupKeys rows).Nodup :=
  (List.perm_insertionSort _ _).symm.nodup (List.nodup_dedup _)

/-- Each summary of a grouped report carries its group key. -/
theorem summary_leaders (db : DB) (rate : Rat) (keys : List Nat) :
    ((keys.map (paySummaryFor db rate)).map (fun s => s.leader_user_id)) =
      keys := by
  rw [List.map_map]
  have hfun : ((fun s : PaySummary => s.leader_user_id) ∘
      paySummaryFor db rate) = id := funext (fun _ => rfl)
  rw [hfun, List.map_id]

/-- Every surviving parsed row's leader id comes from an assignment row. -/
theorem leader_of_mem_parsedRows (db : DB) (r : ParsedRow)
    (hr : r ∈ parsedRows db) :
    ∃ la ∈ db.leader_assignments, r.leader_user_id = la.leader_user_id := by
  unfold parsedRows at hr
  rw [List.mem_filterMap] at hr
  obtain ⟨a, ha, hpa⟩ := hr
  unfold assignmentsJoin at ha
  rw [List.mem_flatMap] at ha
  obtain ⟨la, hla, hmem⟩ := ha
  rw [List.mem_map] at hmem
  obtain ⟨c, _, rfl⟩ := hmem
  refine ⟨la, hla, ?_⟩
  unfold parseAssignRow at hpa
  rcases hps : DateStr.parse? c.start_date with _ | s <;> rw [hps] at hpa
  · exact Option.noConfusion hpa
  rcases hpe : DateStr.parse? c.end_date with _ | e <;> rw [hpe] at hpa
  · exact Option.noConfusion hpa
  obtain rfl := Option.some_injective _ hpa
  rfl

/-- C9 (amended): a leader with no assignment rows gets the zero-total,
empty-per-camp summary from the single accessor and is absent from the bulk
report; the bulk report contains exactly one summary per leader having at
least one assignment to an existing camp whose dates parse. -/
theorem pay_report_leader_membership (db : DB) (rs : List PaySummary)
    (h : compute_leader_pay_report db = .ok rs) :
    (∀ lid : Nat,
      (∀ la ∈ db.leader_assignments, la.leader_user_id ≠ lid) →
        get_leader_pay_summary db lid =
          .ok { leader_user_id := lid, total_pay := 0, per_camp := [] } ∧
        ∀ s ∈ rs, s.leader_user_id ≠ lid) ∧
    (∀ lid : Nat,
      ((∃ r ∈ parsedRows db, r.leader_user_id = lid) ↔
        ∃ s ∈ rs, s.leader_user_id = lid)) ∧
    (rs.map (fun s => s.leader_user_id)).Nodup := by
  have hacc : ∀ lid : Nat, (∀ s ∈ rs, s.leader_user_id ≠ lid) →
      get_leader_pay_summary db lid =
        .ok { leader_user_id := lid, total_pay := 0, per_camp := [] } := by
    intro lid hno
    unfold get_leader_pay_summary
    rw [h]
    dsimp only
    have hfind : rs.find? (fun s => s.leader_user_id == lid) = none := by
      rw [List.find?_eq_none]
      intro s hs
      simpa using hno s hs
    rw [hfind]
    rfl
  have hnols : ∀ lid : Nat,
      (∀ la ∈ db.leader_assignments, la.leader_user_id ≠ lid) →
      ∀ r ∈ parsedRows db, r.leader_user_id ≠ lid := by
    intro lid hno r hr
    obtain ⟨la, hla, heq⟩ := leader_of_mem_parsedRows db r hr
    rw [heq]
    exact hno la hla
  rcases report_shape db rs h with ⟨rfl, hparsed⟩ | ⟨rate, _, rfl⟩
  · refine ⟨fun lid _ => ⟨hacc lid (by simp), by simp⟩, fun lid => ?_, by simp⟩
    rw [hparsed]
    simp
  · have hmem : ∀ lid : Nat,
        (lid ∈ (parsedRows db).map (fun r => r.leader_user_id) ↔
          ∃ s ∈ (groupKeys (parsedRows db)).map (paySummaryFor db rate),
            s.leader_user_id = lid) := by
      intro lid
      rw [← mem_groupKeys_iff]
      constructor
      · intro hk
        exact ⟨paySummaryFor db rate lid, List.mem_map_of_mem _ hk, rfl⟩
      · rintro ⟨s, hs, rfl⟩
        rw [List.mem_map] at hs
        obtain ⟨k, hk, rfl⟩ := hs
        exact hk
    refine ⟨?_, ?_, ?_⟩
    · intro lid hno
      have hnor := hnols lid hno
      have hnosum : ∀ s ∈ (groupKeys (parsedRows db)).map
          (paySummaryFor db rate), s.leader_user_id ≠ lid := by
        intro s hs hcontra
        have := (hmem lid).mpr ⟨s, hs, hcontra⟩
        rw [List.mem_map] at this
        obtain ⟨r, hr, hrl⟩ := this
        exact hnor r hr hrl
      exact ⟨hacc lid hnosum, hnosum⟩
    · intro lid
      rw [← hmem lid, List.mem_map]
    · rw [summary_leaders]
      exact groupKeys_nodup _

/-- C3 (amended): an assignment whose camp dates do not parse is silently
excluded from the pay report — inserting such an assignment leaves the whole
report unchanged — while a camp whose own dates do not parse makes the food
projection raise rather than being skipped. -/
theorem malformed_date_exclusion_policy (db : DB) (la : LeaderAssignment)
    (q : Rat) (hq : dailyRate? db = some q)
    (hbad : ∀ c ∈ db.camps, c.id = la.camp_id →
      (c.start_date.parse? = none ∨ c.end_date.parse? = none)) :
    compute_leader_pay_report
        { db with leader_assignments := la :: db.leader_assignments } =
      compute_leader_pay_report db ∧
    (∀ camp_id c, get_camp db camp_id = some c →
      (c.start_date.parse? = none ∨ c.end_date.parse? = none) →
      compute_day_by_day_food_usage db camp_id = none) := by
  refine ⟨?_, fun camp_id c hc hb => compute_eq_none db camp_id c hc hb⟩
  have hjoin : assignmentsJoin
      { db with leader_assignments := la :: db.leader_assignments } =
      ((db.camps.filter (fun c => c.id == la.camp_id)).map (fun c =>
        { leader_user_id := la.leader_user_id, camp_id := la.camp_id,
          start_date := c.start_date, end_date := c.end_date })) ++
        assignmentsJoin db := rfl
  have hnew : List.filterMap parseAssignRow
      ((db.camps.filter (fun c => c.id == la.camp_id)).map (fun c =>
        ({ leader_user_id := la.leader_user_id, camp_id := la.camp_id,
           start_date := c.start_date, end_date := c.end_date } :
          AssignRow))) = [] := by
    rw [List.filterMap_eq_nil_iff]
    intro a ha
    rw [List.mem_map] at ha
    obtain ⟨c, hcf, rfl⟩ := ha
    have hcmem := List.mem_filter.mp hcf
    have hid : c.id = la.camp_id := by simpa using hcmem.2
    unfold parseAssignRow
    dsimp only
    rcases hbad c hcmem.1 hid with hb | hb
    · rw [hb]
    · rw [hb]
      rcases DateStr.parse? c.start_date with _ | s <;> rfl
  have hparsed : parsedRows
      { db with leader_assignments := la :: db.leader_assignments } =
      parsedRows db := by
    unfold parsedRows
    rw [hjoin, List.filterMap_append, hnew]
    rfl
  have hpl : payLine
      { db with leader_assignments := la :: db.leader_assignments } =
      payLine db := rfl
  have hpay : paySummaryFor
      { db with leader_assignments := la :: db.leader_assignments } q =
      paySummaryFor db q := by
    funext lid
    simp only [paySummaryFor, hparsed, hpl]
  have hrate_eq : dailyRate?
      { db with leader_assignments := la :: db.leader_assignments } =
      dailyRate? db := rfl
  have hcamps_eq : (DB.camps
      { db with leader_assignments := la :: db.leader_assignments }) =
      db.camps := rfl
  unfold compute_leader_pay_report
  rw [hcamps_eq, hrate_eq, hjoin, hparsed, hq]
  dsimp only
  rw [hpay]
  by_cases hcamps : db.camps.isEmpty
  · rw [if_pos hcamps, if_pos hcamps]
  rw [if_neg hcamps, if_neg hcamps]
  by_cases hjoinDb : (assignmentsJoin db).isEmpty
  · rw [if_pos hjoinDb]
    have hpnil : parsedRows db = [] := by
      unfold parsedRows
      rw [List.isEmpty_iff.mp hjoinDb]
      rfl
    rw [hpnil]
    split
    · rfl
    · rfl
  · rw [if_neg hjoinDb]
    split
    · rename_i hcontra
      exfalso
      rw [List.isEmpty_iff, List.append_eq_nil] at hcontra
      exact hjoinDb (by rw [hcontra.2]; rfl)
    · rfl

/-! ## Claim theorems: user deletion -/

/-- Under the primary-key invariant, a single delete_user call preserves the
invariant and never removes the last leader account. -/
theorem delete_user_preserves (db : DB) (user_id : Nat)
    (hnd : (db.users.map (fun v => v.id)).Nodup)
    (hpos : 1 ≤ leaderCount db) :
    ((delete_user db user_id).2.users.map (fun v => v.id)).Nodup ∧
      1 ≤ leaderCount (delete_user db user_id).2 := by
  unfold delete_user
  rcases hfind : db.users.find? (fun u => u.id == user_id) with _ | u <;>
    rw [hfind]
  · exact ⟨hnd, hpos⟩
  dsimp only
  by_cases hblock : u.role = "leader" ∧ leaderCount db ≤ 1
  · rw [if_pos hblock]
    exact ⟨hnd, hpos⟩
  rw [if_neg hblock]
  by_cases hfk : (db.leader_assignments.any
      (fun la => la.leader_user_id == user_id)) = true ∨
      (db.daily_reports.any (fun r => r.leader_user_id == user_id)) = true
  · rw [if_pos hfk]
    exact ⟨hnd, hpos⟩
  rw [if_neg hfk]
  dsimp only
  have humem : u ∈ db.users := List.mem_of_find?_eq_some hfind
  have huid : u.id = user_id := by simpa using List.find?_some hfind
  constructor
  · exact (List.Sublist.map _ (List.filter_sublist _)).nodup hnd
  · rw [Nat.one_le_iff_ne_zero, ← Nat.pos_iff_ne_zero]
    unfold leaderCount
    rw [List.countP_pos_iff]
    have hfindw : ∀ w ∈ db.users, w.role = "leader" → w.id ≠ user_id →
        ∃ a ∈ db.users.filter (fun v => ¬ v.id == user_id),
          (a.role == "leader") = true := by
      intro w hw hwrole hwid
      refine ⟨w, List.mem_filter.mpr ⟨hw, by simpa using hwid⟩, ?_⟩
      simpa using hwrole
    rcases not_and_or.mp hblock with hrole | hcnt
    · have hpos2 : 0 < leaderCount db := hpos
      rw [leaderCount, List.countP_pos_iff] at hpos2
      obtain ⟨w, hw, hwrole⟩ := hpos2
      refine hfindw w hw (by simpa using hwrole) ?_
      intro hwid
      have : w = u := List.inj_on_of_nodup_map hnd hw humem (by rw [hwid, huid])
      rw [this] at hwrole
      exact hrole (by simpa using hwrole)
    · have hcnt2 : 2 ≤ leaderCount db := by omega
      rw [leaderCount, List.countP_eq_length_filter] at hcnt2
      have hnodup_users : db.users.Nodup := List.Nodup.of_map _ hnd
      have hnodup_filter := List.Nodup.filter
        (fun v => v.role == "leader") hnodup_users
      rcases hlead : db.users.filter (fun v => v.role == "leader") with
        _ | ⟨a, _ | ⟨b, t⟩⟩
      · rw [hlead] at hcnt2
        simp at hcnt2
      · rw [hlead] at hcnt2
        simp at hcnt2
      · rw [hlead] at hnodup_filter
        have hab : a ≠ b := by
          intro hcontra
          rw [List.nodup_cons] at hnodup_filter
          exact hnodup_filter.1 (hcontra ▸ List.mem_cons_self b t)
        have hamem := List.mem_filter.mp
          (hlead ▸ List.mem_cons_self a (b :: t))
        have hbmem := List.mem_filter.mp
          (hlead ▸ List.mem_cons_of_mem a (List.mem_cons_self b t))
        by_cases haid : a.id = user_id
        · have hau : a = u :=
            List.inj_on_of_nodup_map hnd hamem.1 humem (by rw [haid, huid])
          refine hfindw b hbmem.1 (by simpa using hbmem.2) ?_
          intro hbid
          have hbu : b = u :=
            List.inj_on_of_nodup_map hnd hbmem.1 humem (by rw [hbid, huid])
          exact hab (by rw [hau, hbu])
        · exact hfindw a hamem.1 (by simpa using hamem.2) haid

/-- Any sequence of delete_user calls keeps at least one leader account. -/
theorem applyDeletes_leader_lower_bound (ids : List Nat) (db : DB)
    (hnd : (db.users.map (fun v => v.id)).Nodup)
    (hpos : 1 ≤ leaderCount db) :
    1 ≤ leaderCount (applyDeletes db ids) := by
  induction ids generalizing db with
  | nil => exact hpos
  | cons i rest ih =>
    have h := delete_user_preserves db i hnd hpos
    exact ih _ h.1 h.2

/-- C10: when exactly one user holds the role leader, delete_user on that
user's id returns False and leaves the store unchanged, and no sequence of
delete_user calls brings the leader count to zero. -/
theorem sole_leader_deletion_blocked (db : DB) (u : User) (user_id : Nat)
    (hnd : (db.users.map (fun v => v.id)).Nodup)
    (hone : db.users.filter (fun v => v.role == "leader") = [u])
    (hid : user_id = u.id) :
    delete_user db user_id = (false, db) ∧
    ∀ ids : List Nat, 1 ≤ leaderCount (applyDeletes db ids) := by
  have humem0 : u ∈ db.users.filter (fun v => v.role == "leader") := by
    rw [hone]
    exact List.mem_cons_self u []
  have humem : u ∈ db.users := (List.mem_filter.mp humem0).1
  have hurole : u.role = "leader" := by
    simpa using (List.mem_filter.mp humem0).2
  have hcount : leaderCount db = 1 := by
    unfold leaderCount
    rw [List.countP_eq_length_filter, hone]
    rfl
  constructor
  · unfold delete_user
    rcases hfind : db.users.find? (fun v => v.id == user_id) with _ | v <;>
      rw [hfind]
    have hvmem := List.mem_of_find?_eq_some hfind
    have hvid : v.id = user_id := by simpa using List.find?_some hfind
    have hveq : v = u :=
      List.inj_on_of_nodup_map hnd hvmem humem (by rw [hvid, hid])
    subst hveq
    dsimp only
    rw [if_pos (show v.role = "leader" ∧ leaderCount db ≤ 1 from
      ⟨hurole, by omega⟩)]
  · intro ids
    exact applyDeletes_leader_lower_bound ids db hnd (by omega)

/-! ## Concrete stores for scenarios, counterexamples and witnesses -/

/-- Day number of 2025-07-01. -/
def day0 : Int := daysFromCivil 2025 7 1

/-- Scenario A camp: one-day camp, base planned 100, default per-camper 10. -/
def forestTrailCamp : Camp :=
  ⟨1, "Forest Trail", .valid day0, .valid day0, 100, 10⟩

/-- Scenario A store: 8 enrolled campers at 10 units each, no top-ups, no
activities. -/
def scenarioA_db : DB :=
  { users := [], camps := [forestTrailCamp]
    camp_campers := (List.range 8).map (fun i => ⟨1, i + 1, 10⟩)
    activities := [], camper_activity := [], stock_topups := []
    leader_assignments := [], daily_reports := [], daily_pay_rate := none }

/-- Scenario B store: Scenario A plus a −30 top-up. -/
def scenarioB_db : DB :=
  { scenarioA_db with stock_topups := [⟨1, -30⟩] }

/-- Scenario D store: camp with start 2025-08-05 and end 2025-08-03 (clerical
reversal), one leader assignment, daily rate 15. -/
def scenarioD_db : DB :=
  { users := []
    camps := [⟨1, "Camp X", .valid (daysFromCivil 2025 8 5),
      .valid (daysFromCivil 2025 8 3), 0, 0⟩]
    camp_campers := [], activities := [], camper_activity := []
    stock_topups := [], leader_assignments := [⟨7, 1⟩], daily_reports := []
    daily_pay_rate := some (.num 15) }

/-- Scenario D store with a non-numeric daily_pay_rate value. -/
def nonnumRate_db : DB :=
  { scenarioD_db with daily_pay_rate := some (.nonnum 0) }

/-- A store whose only camp has an unparsable start date and carries one
leader assignment; the rate setting is absent. -/
def invalidDates_db : DB :=
  { users := []
    camps := [⟨1, "Broken", .invalid 0, .valid day0, 5, 0⟩]
    camp_campers := [], activities := [], camper_activity := []
    stock_topups := [], leader_assignments := [⟨7, 1⟩], daily_reports := []
    daily_pay_rate := none }

/-- One-day camp with an activity scheduled but nobody assigned to it. -/
def soloCamp : Camp := ⟨1, "Solo", .valid day0, .valid day0, 100, 10⟩

/-- Store with one enrolled camper (10 units) and one participant-free
activity on the camp day. -/
def noParticipants_db : DB :=
  { users := [], camps := [soloCamp]
    camp_campers := [⟨1, 1, 10⟩]
    activities := [⟨5, 1, "Hike", .valid day0⟩], camper_activity := []
    stock_topups := [], leader_assignments := [], daily_reports := []
    daily_pay_rate := none }

/-- Store with two enrolled campers (10 and 7 units) where only the first is
assigned to the day's activity. -/
def withParticipants_db : DB :=
  { noParticipants_db with
    camp_campers := [⟨1, 1, 10⟩, ⟨1, 2, 7⟩]
    camper_activity := [⟨5, 1⟩] }

/-- Store with one valid camp carrying an assignment, plus a second camp with
unparsable dates for the insertion experiment. -/
def mixedDates_db : DB :=
  { users := []
    camps := [⟨1, "Alpha", .valid day0, .valid day0, 5, 0⟩,
      ⟨2, "Broken", .invalid 0, .invalid 1, 5, 0⟩]
    camp_campers := [], activities := [], camper_activity := []
    stock_topups := [], leader_assignments := [⟨9, 1⟩], daily_reports := []
    daily_pay_rate := none }

/-- Store for the pay-summary membership witness: one assigned leader (7),
rate 2; leader 9 has no assignments. -/
def membership_db : DB :=
  { users := []
    camps := [⟨1, "Alpha", .valid day0, .valid day0, 5, 0⟩]
    camp_campers := [], activities := [], camper_activity := []
    stock_topups := [], leader_assignments := [⟨7, 1⟩], daily_reports := []
    daily_pay_rate := some (.num 2) }

/-- The sole leader account of the deletion witness store. -/
def soleLeader : User := ⟨1, "leader1", "leader", true⟩

/-- Store with exactly one leader account and one admin account. -/
def soleLeader_db : DB :=
  { users := [soleLeader, ⟨2, "admin", "admin", true⟩]
    camps := [], camp_campers := [], activities := [], camper_activity := []
    stock_topups := [], leader_assignments := [], daily_reports := []
    daily_pay_rate := none }

/-! ## Scenario evaluations: the code_bug, the counterexamples and the
witnesses -/

/-- C1: on the Scenario D reversed range (start 2025-08-05, end 2025-08-03)
the pay report computes the day count as |(end − start) + 1| = 1, not the
specified |end − start| + 1 = 3: the absolute value is applied after the
inclusive +1, so the claimed value 3 is not produced. -/
theorem leader_pay_reversed_range_day_count :
    compute_leader_pay_report scenarioD_db =
      .ok [paySummaryFor scenarioD_db 15 7] ∧
    (paySummaryFor scenarioD_db 15 7).per_camp =
      [{ camp_id := 1, camp_name := "Camp X", days := 1, pay := 15 }] ∧
    (daysFromCivil 2025 8 5 - daysFromCivil 2025 8 3).natAbs + 1 = 3 :=
  ⟨rfl,
   by
    simp [paySummaryFor, payLine, parsedRows, assignmentsJoin, parseAssignRow,
      DateStr.parse?, List.filterMap_cons, scenarioD_db, get_camp,
      daysFromCivil],
   by decide⟩

/-- C2 counterexample: with camps and assignments present and the stored
daily_pay_rate a non-numeric non-empty string, the pay report raises
ValueError instead of treating the rate as 0. -/
theorem leader_pay_nonnumeric_rate_raises :
    nonnumRate_db.daily_pay_rate = some (.nonnum 0) ∧
    compute_leader_pay_report nonnumRate_db =
      .error "ValueError: could not convert string to float" :=
  ⟨rfl, rfl⟩

/-- C2 witness: with the daily_pay_rate row absent the report succeeds, every
pay line is rate × days, and the rate is 0. -/
theorem leader_pay_rate_default_policy_witness :
    (∃ rs, compute_leader_pay_report membership_db = .ok rs ∧
      ∀ s ∈ rs, ∀ l ∈ s.per_camp, l.pay = 2 * (l.days : Rat)) ∧
    ((membership_db.daily_pay_rate = none ∨
      membership_db.daily_pay_rate = some .empty) → (2 : Rat) = 0) :=
  leader_pay_rate_default_policy membership_db 2 rfl

/-- C3 counterexample: a camp that exists but has an unparsable start date
makes the projection raise (and the shortage sweep with it) instead of being
skipped. -/
theorem camp_unparsable_date_projection_raises :
    (get_camp invalidDates_db 1).isSome = true ∧
    compute_day_by_day_food_usage invalidDates_db 1 = none ∧
    get_food_shortage_alerts invalidDates_db = none :=
  ⟨rfl, rfl, rfl⟩

/-- C3 witness: inserting an assignment to the unparsable-dates camp of the
mixed store leaves the pay report unchanged, and the projection of that camp
raises. -/
theorem malformed_date_exclusion_policy_witness :
    compute_leader_pay_report
        { mixedDates_db with
          leader_assignments := ⟨7, 2⟩ :: mixedDates_db.leader_assignments } =
      compute_leader_pay_report mixedDates_db ∧
    compute_day_by_day_food_usage mixedDates_db 2 = none :=
  have h := malformed_date_exclusion_policy mixedDates_db ⟨7, 2⟩ 0 rfl
    (by decide)
  ⟨h.1, h.2 2 ⟨2, "Broken", .invalid 0, .invalid 1, 5, 0⟩ rfl (Or.inl rfl)⟩

/-- C4 witness: Scenario A evaluates to the single record
(2025-07-01, required 80, planned 100, gap 20), and the general day-grid
theorem applies to it. -/
theorem projection_day_grid_baseline_witness :
    compute_day_by_day_food_usage scenarioA_db 1 =
      some [⟨day0, 80, 100, 20⟩] ∧
    (∃ recs, compute_day_by_day_food_usage scenarioA_db 1 = some recs ∧
      recs.map (fun r => r.date) =
        (List.range ((day0 - day0).toNat + 1)).map
          (fun (i : Nat) => day0 + (i : Int)) ∧
      ∀ r ∈ recs,
        (∀ a ∈ scenarioA_db.activities, a.camp_id = 1 →
          a.date ≠ DateStr.valid r.date) →
        r.required =
          ((scenarioA_db.camp_campers.filter (fun cc => cc.camp_id == 1)).map
            (fun cc => cc.food_units_per_day)).sum) :=
  ⟨by decide,
   projection_day_grid_baseline scenarioA_db 1 forestTrailCamp day0 day0
     rfl rfl rfl (le_refl day0)⟩

/-- C5 counterexample: a day with a scheduled activity but no participant
join rows takes the whole-camp baseline (10), not the join-row sum (0). -/
theorem projection_activity_without_participants :
    (noParticipants_db.activities.filter
      (fun a => a.camp_id == 1 && a.date == DateStr.valid day0)).length = 1 ∧
    dayActivityRows noParticipants_db 1 day0 = [] ∧
    compute_day_by_day_food_usage noParticipants_db 1 =
      some [⟨day0, 10, 100, 90⟩] ∧
    ((dayActivityRows noParticipants_db 1 day0).map
      (fun x => x.2.2)).sum = 0 :=
  ⟨by decide, by decide, by decide, by decide⟩

/-- C5 witness: with one of two enrolled campers assigned to the day's
activity, the required units are the join-row sum 10, not the baseline 17,
and the general join-row theorem applies. -/
theorem projection_join_row_required_witness :
    compute_day_by_day_food_usage withParticipants_db 1 =
      some [⟨day0, 10, 100, 90⟩] ∧
    (∃ recs, compute_day_by_day_food_usage withParticipants_db 1 =
        some recs ∧
      ∀ r ∈ recs,
        (dayActivityRows withParticipants_db 1 r.date ≠ [] →
          r.required = ((dayActivityRows withParticipants_db 1 r.date).map
            (fun x => x.2.2)).sum) ∧
        (dayActivityRows withParticipants_db 1 r.date = [] →
          r.required = ((withParticipants_db.camp_campers.filter
            (fun cc => cc.camp_id == 1)).map
              (fun cc => cc.food_units_per_day)).sum)) :=
  ⟨by decide,
   projection_join_row_required withParticipants_db 1 soloCamp day0 day0
     rfl rfl rfl⟩

/-- C6 witness: Scenario B (top-up −30) produces exactly one alert with the
single shortage day, and the membership theorem applies to it. -/
theorem shortage_alert_membership_witness :
    get_food_shortage_alerts scenarioB_db =
      some [⟨1, "Forest Trail", [⟨day0, 80, 70, -10⟩]⟩] ∧
    ((∀ c ∈ scenarioB_db.camps,
      ((∃ e ∈ [(⟨1, "Forest Trail", [⟨day0, 80, 70, -10⟩]⟩ : Alert)],
          e.camp_id = c.id) ↔
        (∃ recs, compute_day_by_day_food_usage scenarioB_db c.id =
            some recs ∧ ∃ r ∈ recs, r.gap < 0))) ∧
    (∀ e ∈ [(⟨1, "Forest Trail", [⟨day0, 80, 70, -10⟩]⟩ : Alert)],
      ∃ recs, compute_day_by_day_food_usage scenarioB_db e.camp_id =
          some recs ∧
        e.shortages = recs.filter (fun r => r.gap < 0) ∧
        e.shortages ≠ [])) :=
  ⟨by decide, shortage_alert_membership scenarioB_db
    [⟨1, "Forest Trail", [⟨day0, 80, 70, -10⟩]⟩] (by decide)⟩

/-- C7 witness: for Scenario B the effective planned units are
100 + (−30) = 70 and every projected day carries them. -/
theorem effective_planned_units_invariant_witness :
    effective_daily_stock_for_camp scenarioB_db 1 = 70 ∧
    (effective_daily_stock_for_camp scenarioB_db 1 =
      forestTrailCamp.daily_food_units_planned +
        ((scenarioB_db.stock_topups.filter (fun t => t.camp_id == 1)).map
          (fun t => t.delta_daily_units)).sum ∧
    ∀ recs, compute_day_by_day_food_usage scenarioB_db 1 = some recs →
      ∀ r ∈ recs, r.planned = effective_daily_stock_for_camp scenarioB_db 1) :=
  ⟨by decide, effective_planned_units_invariant scenarioB_db 1
    forestTrailCamp rfl⟩

/-- C8 witness: camp id 99 does not exist in the Scenario A store; the
projection returns the empty sequence. -/
theorem projection_missing_camp_empty_witness :
    compute_day_by_day_food_usage scenarioA_db 99 = some [] :=
  projection_missing_camp_empty scenarioA_db 99 (by decide)

/-- C9 counterexample: leader 7 has one assignment, but because its camp's
dates do not parse, the bulk report contains no summary at all for any
leader. -/
theorem pay_report_omits_unparsable_assignment_leader :
    invalidDates_db.leader_assignments = [⟨7, 1⟩] ∧
    compute_leader_pay_report invalidDates_db = .ok [] :=
  ⟨rfl, rfl⟩

/-- C9 witness: leader 9 (no assignments) gets the zero summary from the
accessor, and leader 7 (one parseable assignment) has exactly the grouped
summary. -/
theorem pay_report_leader_membership_witness :
    get_leader_pay_summary membership_db 9 =
      .ok { leader_user_id := 9, total_pay := 0, per_camp := [] } ∧
    ((∃ r ∈ parsedRows membership_db, r.leader_user_id = 7) ↔
      ∃ s ∈ [paySummaryFor membership_db 2 7], s.leader_user_id = 7) :=
  have h := pay_report_leader_membership membership_db
    [paySummaryFor membership_db 2 7] rfl
  ⟨(h.1 9 (by decide)).1, h.2.1 7⟩

/-- C10 witness: deleting the sole leader account is refused with the store
unchanged, and a burst of delete calls keeps a leader account. -/
theorem sole_leader_deletion_blocked_witness :
    delete_user soleLeader_db 1 = (false, soleLeader_db) ∧
    1 ≤ leaderCount (applyDeletes soleLeader_db [1, 1, 2]) :=
  have h := sole_leader_deletion_blocked soleLeader_db soleLeader 1
    (by decide) (by decide) rfl
  ⟨h.1, h.2 [1, 1, 2]⟩
